import Mathlib

/-!
# Verification of the parcel committed-asset content store and bundle-graph model

Shallow embedding of `CommittedAsset` (`src/unnamed/part_000`) and of the
bundle-graph interfaces of `src/packages/core/types/index.js`.  Promises are
modelled by their settled outcomes (`Except`), the blob cache and the code
generator are explicit parameters, and every accessor returns its result, the
updated memoization state, and a count of the underlying effects performed.
-/

deriving instance DecidableEq for Except

namespace Parcel

/-- Bytes of a Node `Buffer`. -/
abbrev Bytes := List Nat

/-- UTF-8 encoding of one Unicode scalar value. -/
def utf8Char (n : Nat) : Bytes :=
  if n < 0x80 then [n]
  else if n < 0x800 then [0xC0 + n / 64, 0x80 + n % 64]
  else if n < 0x10000 then [0xE0 + n / 4096, 0x80 + (n / 64) % 64, 0x80 + n % 64]
  else [0xF0 + n / 262144, 0x80 + (n / 4096) % 64, 0x80 + (n / 64) % 64, 0x80 + n % 64]

/-- `Buffer.from(string)`: the UTF-8 bytes of a string. -/
def utf8Bytes (s : String) : Bytes :=
  s.data.foldr (fun c acc => utf8Char c.toNat ++ acc) []

/-- `buffer.toString()`: decode bytes as UTF-8 text (invalid sequences give `""`,
which is enough for this development since no claim depends on decode fidelity). -/
def decodeUTF8 (b : Bytes) : String :=
  match String.fromUTF8? (ByteArray.mk (Array.mk (b.map (fun n => UInt8.ofNat n)))) with
  | some s => s
  | none => ""

/-- A resolved content value, JS `Buffer | string`. -/
inductive BufStr : Type
  | str (s : String)
  | buf (b : Bytes)
deriving DecidableEq

/-- `Buffer.from(content)` for a `Buffer | string` value. -/
def BufStr.toBytes : BufStr → Bytes
  | .str s => utf8Bytes s
  | .buf b => b

/-- `content.toString()` for a `Buffer | string` value. -/
def BufStr.toStr : BufStr → String
  | .str s => s
  | .buf b => decodeUTF8 b

/-- An error raised by the blob cache; `enoent` is the distinguished
"not found" error code (`err.code === 'ENOENT'`). -/
inductive CacheErr : Type
  | enoent
  | other (code : Nat)
deriving DecidableEq

/-- An error surfaced by a content accessor: `new Error('Asset has no content')`
or a propagated cache error. -/
inductive Err : Type
  | noContent
  | cache (e : CacheErr)
deriving DecidableEq

/-- The `content` field produced by `generateFromAST`: a string, a buffer, or a
stream factory (`typeof content === 'function'`) that yields the given bytes. -/
inductive GenContent : Type
  | gstr (s : String)
  | gbuf (b : Bytes)
  | gstream (b : Bytes)
deriving DecidableEq

/-- The bytes eventually delivered by generated content (`bufferStream` of it). -/
def GenContent.toBytesG : GenContent → Bytes
  | .gstr s => utf8Bytes s
  | .gbuf b => b
  | .gstream b => b

/-- The value memoized by `getContent` for non-stream generated content
(`typeof content !== 'function'`); a stream is not memoized there. -/
def GenContent.toBufStr : GenContent → Option BufStr
  | .gstr s => some (.str s)
  | .gbuf b => some (.buf b)
  | .gstream _ => none

/-- Result of `generateFromAST`: the generated content and the optional
source-map buffer (`map?.toBuffer()`). -/
structure GenOut : Type where
  content : GenContent
  map : Option Bytes
deriving DecidableEq

/-- The external collaborators of a `CommittedAsset`: the blob cache
(`options.cache.getBlob` / `options.cache.getStream` deliver the same bytes for
a given key) and the code generator `generateFromAST` for this asset. -/
structure Env : Type where
  blob : Nat → Except CacheErr Bytes
  gen : GenOut

/-- The cache-key fields of a committed `Asset` value. -/
structure AssetVal : Type where
  contentKey : Option Nat
  astKey : Option Nat
  mapKey : Option Nat
deriving DecidableEq

/-- `new SourceMap(mapBuffer)`: a decoded source map, carrying its
flatbuffer bytes. -/
structure SMap : Type where
  bytes : Bytes
deriving DecidableEq

/-- The memoization slots of a `CommittedAsset` (`this.content`,
`this.mapBuffer`, `this.map`), each holding the settled outcome of the stored
promise once the slot is filled.  A settled content value is optional: the
code defensively handles a null/undefined resolved content (`return ''` in
`getCode`, `content == null → Buffer.alloc(0)` in `getBuffer`), so the model
keeps that state representable. -/
structure CAState : Type where
  content : Option (Except CacheErr (Option BufStr))
  mapBuffer : Option (Except CacheErr (Option Bytes))
  map : Option (Except CacheErr (Option SMap))
deriving DecidableEq

/-- A fresh `CommittedAsset`: no memoized slot is filled. -/
def CAState.init : CAState := ⟨none, none, none⟩

/-- Counts of the underlying effects performed by one accessor call:
blob-cache fetches, `generateFromAST` invocations, and source-map decodings
(`new SourceMap`). -/
structure Eff : Type where
  fetches : Nat
  gens : Nat
  decodes : Nat
deriving DecidableEq

/-- No effect. -/
def Eff.zero : Eff := ⟨0, 0, 0⟩

/-- Componentwise sum of effect counts. -/
def Eff.add (a b : Eff) : Eff :=
  ⟨a.fetches + b.fetches, a.gens + b.gens, a.decodes + b.decodes⟩

/-- The outcome of one accessor call: the settled result, the updated
memoization state, and the effects performed. -/
structure Step (ε α : Type) : Type where
  res : Except ε α
  st : CAState
  eff : Eff

/-- A content producer: a zero-argument stream factory returned by
`getContent` (`() => cache.getStream(contentKey)` or
`() => streamFromPromise(generated)`). -/
inductive Producer : Type
  | fromCache (key : Nat)
  | fromGenerated (c : GenContent)
deriving DecidableEq

/-- What `getContent` returns: the memoized content promise, or a producer. -/
inductive ContentRes : Type
  | resolved (r : Except CacheErr (Option BufStr))
  | producer (p : Producer)
deriving DecidableEq

namespace CommittedAsset

/-- `CommittedAsset.getContent`: return the memoized content promise if set;
otherwise a cache-stream producer when `contentKey` is set; otherwise, when
`astKey` is set, invoke `generateFromAST`, memoize non-stream generated content
(`this.content = Promise.resolve(content)` inside the `.then`), and return a
producer over the generated output; otherwise throw `'Asset has no content'`. -/
def getContent (env : Env) (v : AssetVal) (s : CAState) : Step Err ContentRes :=
  match s.content with
  | some c => ⟨.ok (.resolved c), s, Eff.zero⟩
  | none =>
    match v.contentKey with
    | some k => ⟨.ok (.producer (.fromCache k)), s, Eff.zero⟩
    | none =>
      match v.astKey with
      | some _ =>
        let c := env.gen.content
        let s1 : CAState :=
          match c.toBufStr with
          | some bs => { s with content := some (.ok (some bs)) }
          | none => s
        ⟨.ok (.producer (.fromGenerated c)), s1, ⟨0, 1, 0⟩⟩
      | none => ⟨.error .noContent, s, Eff.zero⟩

/-- Drain a producer's stream into a buffer (`bufferStream(content())`). -/
def runProducer (env : Env) : Producer → Except CacheErr Bytes × Eff
  | .fromCache k => (env.blob k, ⟨1, 0, 0⟩)
  | .fromGenerated c => (.ok c.toBytesG, Eff.zero)

/-- The else-branch of `getCode`: `content = await this.getContent()` followed
by the conversion of the result to a string (draining and memoizing a producer
via `this.content = bufferStream(content())`); a null resolved content falls
through both type checks to the final `return ''`. -/
def getCodeViaContent (env : Env) (v : AssetVal) (s : CAState) : Step Err String :=
  match getContent env v s with
  | ⟨.error e, s1, e1⟩ => ⟨.error e, s1, e1⟩
  | ⟨.ok (.resolved (.error ce)), s1, e1⟩ => ⟨.error (.cache ce), s1, e1⟩
  | ⟨.ok (.resolved (.ok (some c))), s1, e1⟩ => ⟨.ok c.toStr, s1, e1⟩
  | ⟨.ok (.resolved (.ok none)), s1, e1⟩ => ⟨.ok "", s1, e1⟩
  | ⟨.ok (.producer p), s1, e1⟩ =>
    match runProducer env p with
    | (.ok b, e2) =>
      ⟨.ok (BufStr.buf b).toStr, { s1 with content := some (.ok (some (.buf b))) }, e1.add e2⟩
    | (.error ce, e2) =>
      ⟨.error (.cache ce), { s1 with content := some (.error ce) }, e1.add e2⟩

/-- `CommittedAsset.getCode`: when no content is memoized and `contentKey` is
set, fetch the blob, memoize the promise (`this.content = cache.getBlob(...)`,
a rejection staying memoized), and return its text; otherwise go through
`getContent`. -/
def getCode (env : Env) (v : AssetVal) (s : CAState) : Step Err String :=
  match s.content, v.contentKey with
  | none, some k =>
    match env.blob k with
    | .ok b =>
      ⟨.ok (BufStr.buf b).toStr, { s with content := some (.ok (some (.buf b))) }, ⟨1, 0, 0⟩⟩
    | .error e =>
      ⟨.error (.cache e), { s with content := some (.error e) }, ⟨1, 0, 0⟩⟩
  | _, _ => getCodeViaContent env v s

/-- `CommittedAsset.getBuffer`: `await getContent()`, then return a zero-length
buffer for a null resolved content (`content == null → Buffer.alloc(0)`), the
bytes of a resolved value (`Buffer.from(content)`), or drain a producer and
memoize the buffered result (`this.content = bufferStream(content())`). -/
def getBuffer (env : Env) (v : AssetVal) (s : CAState) : Step Err Bytes :=
  match getContent env v s with
  | ⟨.error e, s1, e1⟩ => ⟨.error e, s1, e1⟩
  | ⟨.ok (.resolved (.error ce)), s1, e1⟩ => ⟨.error (.cache ce), s1, e1⟩
  | ⟨.ok (.resolved (.ok none)), s1, e1⟩ => ⟨.ok [], s1, e1⟩
  | ⟨.ok (.resolved (.ok (some c))), s1, e1⟩ => ⟨.ok c.toBytes, s1, e1⟩
  | ⟨.ok (.producer p), s1, e1⟩ =>
    match runProducer env p with
    | (.ok b, e2) => ⟨.ok b, { s1 with content := some (.ok (some (.buf b))) }, e1.add e2⟩
    | (.error ce, e2) => ⟨.error (.cache ce), { s1 with content := some (.error ce) }, e1.add e2⟩

/-- `CommittedAsset.getStream`: the bytes eventually produced by the returned
readable stream (`streamFromPromise(content)` for a pending promise — ending
empty for a null resolved content — `content()` for a producer); unlike
`getBuffer`, the producer branch does not memoize. -/
def getStream (env : Env) (v : AssetVal) (s : CAState) : Step Err Bytes :=
  match getContent env v s with
  | ⟨.error e, s1, e1⟩ => ⟨.error e, s1, e1⟩
  | ⟨.ok (.resolved (.error ce)), s1, e1⟩ => ⟨.error (.cache ce), s1, e1⟩
  | ⟨.ok (.resolved (.ok none)), s1, e1⟩ => ⟨.ok [], s1, e1⟩
  | ⟨.ok (.resolved (.ok (some c))), s1, e1⟩ => ⟨.ok c.toBytes, s1, e1⟩
  | ⟨.ok (.producer p), s1, e1⟩ =>
    match runProducer env p with
    | (.ok b, e2) => ⟨.ok b, s1, e1.add e2⟩
    | (.error ce, e2) => ⟨.error (.cache ce), s1, e1.add e2⟩

/-- `CommittedAsset.getMapBuffer`: when `mapKey` is set and nothing is memoized,
fetch the blob for `mapKey`; on an `'ENOENT'` failure with `astKey` set, fall
back to `(await generateFromAST(this)).map?.toBuffer()`; any other cache error
(or `'ENOENT'` with no `astKey`) rejects, the settled promise staying memoized.
With no `mapKey` the memo is never filled and the call resolves to `undefined`
(`this.mapBuffer ?? Promise.resolve()`). -/
def getMapBuffer (env : Env) (v : AssetVal) (s : CAState) : Step CacheErr (Option Bytes) :=
  match v.mapKey, s.mapBuffer with
  | some mk, none =>
    match env.blob mk with
    | .ok b => ⟨.ok (some b), { s with mapBuffer := some (.ok (some b)) }, ⟨1, 0, 0⟩⟩
    | .error .enoent =>
      match v.astKey with
      | some _ =>
        ⟨.ok env.gen.map, { s with mapBuffer := some (.ok env.gen.map) }, ⟨1, 1, 0⟩⟩
      | none =>
        ⟨.error .enoent, { s with mapBuffer := some (.error .enoent) }, ⟨1, 0, 0⟩⟩
    | .error (.other c) =>
      ⟨.error (.other c), { s with mapBuffer := some (.error (.other c)) }, ⟨1, 0, 0⟩⟩
  | _, some r => ⟨r, s, Eff.zero⟩
  | none, none => ⟨.ok none, s, Eff.zero⟩

/-- `CommittedAsset.getMap`: on first call, await `getMapBuffer()` and decode a
present buffer with `new SourceMap(mapBuffer)` (a `Buffer` is always truthy, an
`undefined` buffer yields `undefined`); the settled promise is memoized in
`this.map`. -/
def getMap (env : Env) (v : AssetVal) (s : CAState) : Step CacheErr (Option SMap) :=
  match s.map with
  | some r => ⟨r, s, Eff.zero⟩
  | none =>
    match getMapBuffer env v s with
    | ⟨.ok (some b), s1, e1⟩ =>
      ⟨.ok (some ⟨b⟩), { s1 with map := some (.ok (some ⟨b⟩)) }, e1.add ⟨0, 0, 1⟩⟩
    | ⟨.ok none, s1, e1⟩ => ⟨.ok none, { s1 with map := some (.ok none) }, e1⟩
    | ⟨.error ce, s1, e1⟩ => ⟨.error ce, { s1 with map := some (.error ce) }, e1⟩

end CommittedAsset

/-! ## Symbol resolution and bundle creation

The implementations of `BundleGraph.getSymbolResolution` and
`MutableBundleGraph.createBundle` are not part of the sources; only their
interface declarations and documentation are (`src/packages/core/types/index.js`).
The definitions below are therefore modelled from the spec. -/

/-- A symbol-table entry for one `(asset, exportSymbol)` pair: a re-export of
another asset's export (with the source location of the specifier), a cleared
table (static analysis bailed out), or a genuine local definition. -/
inductive SymEntry : Type
  | reexport (toAsset : Nat) (toSym : String) (loc : Option Nat)
  | cleared
  | localDef (localName : String)
deriving DecidableEq

/-- Modelled from the spec: the per-asset export symbol tables of the bundle
graph, as a finite table keyed by `(asset id, export name)`. -/
structure SymGraph : Type where
  symtab : List ((Nat × String) × SymEntry)
deriving DecidableEq

/-- Lookup of `exportSymbol` in `asset`'s symbol table. -/
def lookupSym : List ((Nat × String) × SymEntry) → Nat → String → Option SymEntry
  | [], _, _ => none
  | (k, e) :: rest, a, s => if k = (a, s) then some e else lookupSym rest a s

/-- The `symbol` field of a resolution result: `undefined`, `null` (bailout),
or an identifier. -/
inductive SymVal : Type
  | undef
  | nullSym
  | sym (name : String)
deriving DecidableEq

/-- The `SymbolResolution` record `{asset, exportSymbol, symbol, loc}`. -/
structure SymRes : Type where
  asset : Nat
  exportSymbol : String
  symbol : SymVal
  loc : Option Nat
deriving DecidableEq

/-- Whether an asset is contained in the optional boundary bundle
(`boundary == null || boundary.hasAsset(asset)`). -/
def inBoundary : Option (List Nat) → Nat → Bool
  | none, _ => true
  | some bs, a => bs.contains a

/-- Modelled from the spec: the resolution loop of
`BundleGraph.getSymbolResolution`.  A working pointer `(asset, exportSymbol)`
advances through re-export entries, recording the last traversed source
location; a pair already in the per-call visited set stops with `undefined`
(cycle guard); a re-export whose target asset is not contained in the boundary
bundle stops immediately at the current asset with `undefined`; a missing entry
is `undefined`, a cleared table is `null`, and a local definition resolves.
The fuel only bounds the recursion; it is chosen in `getSymbolResolution` so
that the visited set can never exhaust it. -/
def resolveGo (g : SymGraph) (bdry : Option (List Nat)) :
    Nat → List (Nat × String) → Nat → String → Option Nat → SymRes
  | 0, _, a, s, lastLoc => ⟨a, s, .undef, lastLoc⟩
  | fuel + 1, visited, a, s, lastLoc =>
    if (a, s) ∈ visited then ⟨a, s, .undef, lastLoc⟩
    else
      match lookupSym g.symtab a s with
      | none => ⟨a, s, .undef, lastLoc⟩
      | some .cleared => ⟨a, s, .nullSym, lastLoc⟩
      | some (.localDef n) => ⟨a, s, .sym n, lastLoc⟩
      | some (.reexport b t loc) =>
        if inBoundary bdry b then
          resolveGo g bdry fuel ((a, s) :: visited) b t loc
        else ⟨a, s, .undef, lastLoc⟩

/-- Modelled from the spec: `BundleGraph.getSymbolResolution(asset, symbol,
boundary)` — trace `symbol` through re-export chains starting from `asset`,
stopping at the bundle boundary, with a per-call visited set as cycle guard. -/
def getSymbolResolution (g : SymGraph) (a : Nat) (s : String)
    (bdry : Option (List Nat)) : SymRes :=
  resolveGo g bdry (g.symtab.length + 1) [] a s none

/-- An asset as seen by `createBundle`: identifier, declared type, and
owning environment. -/
structure BAsset : Type where
  id : String
  type : String
  env : Nat
deriving DecidableEq

/-- The `CreateBundleOptions` record: an optional entry asset, the optional
explicit `uniqueKey`/`type`/`env`, and the target. -/
structure CreateBundleOpts : Type where
  entryAsset : Option BAsset
  uniqueKey : Option String
  type : Option String
  env : Option Nat
  target : Nat
deriving DecidableEq

/-- A bundle as returned by `createBundle`: identity, type, environment,
target, and its membership set. -/
structure MBundle : Type where
  id : String
  type : String
  env : Nat
  target : Nat
  assets : List String
deriving DecidableEq

/-- Modelled from the spec: `MutableBundleGraph.createBundle(options)` — with
an entry asset, the bundle's unique key (its id), type, and environment are
inferred from that asset; without one, all three must be supplied explicitly
(`none` models the contract violation).  The returned bundle has empty
membership. -/
def createBundle (opts : CreateBundleOpts) : Option MBundle :=
  match opts.entryAsset with
  | some a => some ⟨a.id, a.type, a.env, opts.target, []⟩
  | none =>
    match opts.uniqueKey, opts.type, opts.env with
    | some k, some t, some e => some ⟨k, t, e, opts.target, []⟩
    | _, _, _ => none

/-! ## Theorems -/

/-- C2: for an asset whose value has `astKey` set and `contentKey` unset, the
first `getBuffer()` call invokes `generateFromAST` exactly once, returns the
generated bytes, and memoizes them in the content slot; a second, sequential
`getBuffer()` call performs zero further generation (zero effects at all) and
returns the memoized content. -/
theorem getBuffer_ast_fallback (env : Env) (v : AssetVal) (s : CAState) (a : Nat)
    (hc : v.contentKey = none) (ha : v.astKey = some a) (h0 : s.content = none) :
    (CommittedAsset.getBuffer env v s).res = .ok env.gen.content.toBytesG
    ∧ (CommittedAsset.getBuffer env v s).eff.gens = 1
    ∧ (CommittedAsset.getBuffer env v s).st.content
        = some (.ok (some (.buf env.gen.content.toBytesG)))
    ∧ CommittedAsset.getBuffer env v (CommittedAsset.getBuffer env v s).st
        = ⟨.ok env.gen.content.toBytesG, (CommittedAsset.getBuffer env v s).st, Eff.zero⟩ := by
  rcases hg : env.gen.content with cs | cb | cstr <;>
    simp [CommittedAsset.getBuffer, CommittedAsset.getContent, CommittedAsset.runProducer,
      h0, hc, ha, hg, GenContent.toBufStr, GenContent.toBytesG, BufStr.toBytes,
      Eff.add, Eff.zero]

/-- Witness for C2 at a concrete asset with only an AST key. -/
theorem getBuffer_ast_fallback_witness :
    (CommittedAsset.getBuffer ⟨fun _ => .ok [], ⟨.gstr "x", none⟩⟩
        ⟨none, some 1, none⟩ CAState.init).res
      = .ok (Env.gen ⟨fun _ => .ok [], ⟨.gstr "x", none⟩⟩).content.toBytesG
    ∧ (CommittedAsset.getBuffer ⟨fun _ => .ok [], ⟨.gstr "x", none⟩⟩
        ⟨none, some 1, none⟩ CAState.init).eff.gens = 1
    ∧ (CommittedAsset.getBuffer ⟨fun _ => .ok [], ⟨.gstr "x", none⟩⟩
        ⟨none, some 1, none⟩ CAState.init).st.content
      = some (.ok (some (.buf (Env.gen ⟨fun _ => .ok [], ⟨.gstr "x", none⟩⟩).content.toBytesG)))
    ∧ CommittedAsset.getBuffer ⟨fun _ => .ok [], ⟨.gstr "x", none⟩⟩ ⟨none, some 1, none⟩
        (CommittedAsset.getBuffer ⟨fun _ => .ok [], ⟨.gstr "x", none⟩⟩
          ⟨none, some 1, none⟩ CAState.init).st
      = ⟨.ok (Env.gen ⟨fun _ => .ok [], ⟨.gstr "x", none⟩⟩).content.toBytesG,
         (CommittedAsset.getBuffer ⟨fun _ => .ok [], ⟨.gstr "x", none⟩⟩
           ⟨none, some 1, none⟩ CAState.init).st, Eff.zero⟩ :=
  getBuffer_ast_fallback ⟨fun _ => .ok [], ⟨.gstr "x", none⟩⟩ ⟨none, some 1, none⟩
    CAState.init 1 rfl rfl rfl

/-- C3: with no memoized content and neither `contentKey` nor `astKey` set,
`getContent` (and hence `getCode`, `getBuffer`, `getStream`) fails with the
`'Asset has no content'` error; when either key is present, none of these
accessors ever raises that error (on any state). -/
theorem noContent_spec (env : Env) (v : AssetVal) :
    (∀ s : CAState, s.content = none → v.contentKey = none → v.astKey = none →
      (CommittedAsset.getContent env v s).res = .error .noContent
      ∧ (CommittedAsset.getCode env v s).res = .error .noContent
      ∧ (CommittedAsset.getBuffer env v s).res = .error .noContent
      ∧ (CommittedAsset.getStream env v s).res = .error .noContent)
    ∧ (∀ s : CAState, v.contentKey.isSome ∨ v.astKey.isSome →
      (CommittedAsset.getContent env v s).res ≠ .error .noContent
      ∧ (CommittedAsset.getCode env v s).res ≠ .error .noContent
      ∧ (CommittedAsset.getBuffer env v s).res ≠ .error .noContent
      ∧ (CommittedAsset.getStream env v s).res ≠ .error .noContent) := by
  constructor
  · intro s h0 hc ha
    simp [CommittedAsset.getContent, CommittedAsset.getCode, CommittedAsset.getBuffer,
      CommittedAsset.getStream, CommittedAsset.getCodeViaContent, h0, hc, ha]
  · intro s hkey
    rcases hkey with hc | ha
    · obtain ⟨k, hk⟩ := Option.isSome_iff_exists.mp hc
      rcases hsc : s.content with _ | r
      · rcases hbk : env.blob k with b | e <;>
          simp [CommittedAsset.getContent, CommittedAsset.getCode, CommittedAsset.getBuffer,
            CommittedAsset.getStream, CommittedAsset.getCodeViaContent,
            CommittedAsset.runProducer, hsc, hk, hbk]
      · rcases r with ce | (_ | c) <;>
          simp [CommittedAsset.getContent, CommittedAsset.getCode, CommittedAsset.getBuffer,
            CommittedAsset.getStream, CommittedAsset.getCodeViaContent, hsc, hk]
    · obtain ⟨a, ha2⟩ := Option.isSome_iff_exists.mp ha
      rcases hsc : s.content with _ | r
      · rcases hck : v.contentKey with _ | k
        · rcases hg : env.gen.content <;>
            simp [CommittedAsset.getContent, CommittedAsset.getCode, CommittedAsset.getBuffer,
              CommittedAsset.getStream, CommittedAsset.getCodeViaContent,
              CommittedAsset.runProducer, hsc, hck, ha2, hg, GenContent.toBufStr]
        · rcases hbk : env.blob k with b | e <;>
            simp [CommittedAsset.getContent, CommittedAsset.getCode, CommittedAsset.getBuffer,
              CommittedAsset.getStream, CommittedAsset.getCodeViaContent,
              CommittedAsset.runProducer, hsc, hck, hbk]
      · rcases r with ce | (_ | c) <;>
          rcases hck : v.contentKey with _ | k <;>
            simp [CommittedAsset.getContent, CommittedAsset.getCode, CommittedAsset.getBuffer,
              CommittedAsset.getStream, CommittedAsset.getCodeViaContent, hsc, hck]

/-- Witness for C3: a keyless asset fails with the no-content error, and an
asset with a content key never does. -/
theorem noContent_spec_witness :
    (CommittedAsset.getContent ⟨fun _ => .ok [7], ⟨.gstr "x", none⟩⟩
        ⟨none, none, some 2⟩ CAState.init).res = .error .noContent
    ∧ (CommittedAsset.getCode ⟨fun _ => .ok [7], ⟨.gstr "x", none⟩⟩
        ⟨none, none, some 2⟩ CAState.init).res = .error .noContent
    ∧ (CommittedAsset.getBuffer ⟨fun _ => .ok [7], ⟨.gstr "x", none⟩⟩
        ⟨none, none, some 2⟩ CAState.init).res = .error .noContent
    ∧ (CommittedAsset.getStream ⟨fun _ => .ok [7], ⟨.gstr "x", none⟩⟩
        ⟨none, none, some 2⟩ CAState.init).res = .error .noContent
    ∧ (CommittedAsset.getBuffer ⟨fun _ => .ok [7], ⟨.gstr "x", none⟩⟩
        ⟨some 5, none, none⟩ CAState.init).res ≠ .error .noContent :=
  ⟨((noContent_spec ⟨fun _ => .ok [7], ⟨.gstr "x", none⟩⟩ ⟨none, none, some 2⟩).1
      CAState.init rfl rfl rfl).1,
   ((noContent_spec ⟨fun _ => .ok [7], ⟨.gstr "x", none⟩⟩ ⟨none, none, some 2⟩).1
      CAState.init rfl rfl rfl).2.1,
   ((noContent_spec ⟨fun _ => .ok [7], ⟨.gstr "x", none⟩⟩ ⟨none, none, some 2⟩).1
      CAState.init rfl rfl rfl).2.2.1,
   ((noContent_spec ⟨fun _ => .ok [7], ⟨.gstr "x", none⟩⟩ ⟨none, none, some 2⟩).1
      CAState.init rfl rfl rfl).2.2.2,
   ((noContent_spec ⟨fun _ => .ok [7], ⟨.gstr "x", none⟩⟩ ⟨some 5, none, none⟩).2
      CAState.init (Or.inl rfl)).2.2.1⟩

/-- C8: whenever an asset's content resolves to empty bytes or is absent — a
`contentKey` whose blob is empty, an `astKey`-only asset whose generated
content is empty (e.g. the empty string), already-memoized content whose bytes
are empty, or a null resolved content (the `content == null` branch) —
`getBuffer()` returns a zero-length buffer and no error. -/
theorem getBuffer_empty (env : Env) (v : AssetVal) (s : CAState)
    (hs : (s.content = none ∧ ∃ k, v.contentKey = some k ∧ env.blob k = .ok [])
        ∨ (s.content = none ∧ v.contentKey = none ∧ (∃ a, v.astKey = some a)
            ∧ env.gen.content.toBytesG = [])
        ∨ (∃ c : BufStr, s.content = some (.ok (some c)) ∧ c.toBytes = [])
        ∨ s.content = some (.ok none)) :
    (CommittedAsset.getBuffer env v s).res = .ok [] := by
  rcases hs with ⟨h0, k, hk, hb⟩ | ⟨h0, hck, ⟨a, ha⟩, hg⟩ | ⟨c, hc1, hc2⟩ | h0
  · simp [CommittedAsset.getBuffer, CommittedAsset.getContent, CommittedAsset.runProducer,
      h0, hk, hb]
  · rcases hgc : env.gen.content with cs | cb | cstr <;> rw [hgc] at hg <;>
      simp [CommittedAsset.getBuffer, CommittedAsset.getContent, CommittedAsset.runProducer,
        h0, hck, ha, hgc, GenContent.toBufStr, hg]
  · simp [CommittedAsset.getBuffer, CommittedAsset.getContent, hc1, hc2]
  · simp [CommittedAsset.getBuffer, CommittedAsset.getContent, h0]

/-- Witness for C8: an empty cached blob, an AST-only asset generating the
empty string, and a null resolved content all give a zero-length buffer. -/
theorem getBuffer_empty_witness :
    (CommittedAsset.getBuffer ⟨fun _ => .ok [], ⟨.gstr "x", none⟩⟩
        ⟨some 3, none, none⟩ CAState.init).res = .ok []
    ∧ (CommittedAsset.getBuffer ⟨fun _ => .ok [7], ⟨.gstr "", none⟩⟩
        ⟨none, some 2, none⟩ CAState.init).res = .ok []
    ∧ (CommittedAsset.getBuffer ⟨fun _ => .ok [7], ⟨.gstr "x", none⟩⟩
        ⟨some 3, none, none⟩ ⟨some (.ok none), none, none⟩).res = .ok [] :=
  ⟨getBuffer_empty ⟨fun _ => .ok [], ⟨.gstr "x", none⟩⟩ ⟨some 3, none, none⟩
     CAState.init (Or.inl ⟨rfl, 3, rfl, rfl⟩),
   getBuffer_empty ⟨fun _ => .ok [7], ⟨.gstr "", none⟩⟩ ⟨none, some 2, none⟩
     CAState.init (Or.inr (Or.inl ⟨rfl, rfl, ⟨2, rfl⟩, by decide⟩)),
   getBuffer_empty ⟨fun _ => .ok [7], ⟨.gstr "x", none⟩⟩ ⟨some 3, none, none⟩
     ⟨some (.ok none), none, none⟩ (Or.inr (Or.inr (Or.inr rfl)))⟩

/-- C10: with `mapKey` unset and the map-buffer slot unfilled (as it always is
for such an asset, the slot being filled only under a `mapKey`), `getMapBuffer()`
resolves to `undefined` with no cache access and no error, leaving the state
unchanged — hence the same outcome on every call, whatever `contentKey` and
`astKey` are. -/
theorem getMapBuffer_no_mapKey (env : Env) (v : AssetVal) (s : CAState)
    (hmk : v.mapKey = none) (h0 : s.mapBuffer = none) :
    CommittedAsset.getMapBuffer env v s = ⟨.ok none, s, Eff.zero⟩ := by
  unfold CommittedAsset.getMapBuffer
  rw [hmk, h0]

/-- Witness for C10 on an asset having both other keys but no map key. -/
theorem getMapBuffer_no_mapKey_witness :
    (⟨some 1, some 2, none⟩ : AssetVal).mapKey = none
    ∧ CommittedAsset.getMapBuffer ⟨fun _ => .ok [7], ⟨.gstr "x", some [9]⟩⟩
        ⟨some 1, some 2, none⟩ CAState.init
      = ⟨.ok none, CAState.init, Eff.zero⟩ :=
  ⟨rfl, getMapBuffer_no_mapKey ⟨fun _ => .ok [7], ⟨.gstr "x", some [9]⟩⟩
    ⟨some 1, some 2, none⟩ CAState.init rfl rfl⟩


/-- With the map-buffer slot filled, `getMapBuffer` returns the settled memo
unchanged, with no effect. -/
theorem getMapBuffer_memo (env : Env) (v : AssetVal) (s : CAState)
    (r : Except CacheErr (Option Bytes)) (h : s.mapBuffer = some r) :
    CommittedAsset.getMapBuffer env v s = ⟨r, s, Eff.zero⟩ := by
  rcases hm : v.mapKey with _ | mk <;>
  · unfold CommittedAsset.getMapBuffer
    rw [hm, h]

/-- C4: on an asset with `mapKey` set and nothing memoized, `getMapBuffer()`
returns the cached blob for `mapKey`; on an `'ENOENT'` failure with an `astKey`
it instead regenerates through `generateFromAST` and returns the generated map
buffer; any other cache error — or `'ENOENT'` with no `astKey` — propagates
unchanged; and the settled result is memoized, a second call returning it with
no further effect. -/
theorem getMapBuffer_spec (env : Env) (v : AssetVal) (s : CAState) (mk : Nat)
    (hmk : v.mapKey = some mk) (h0 : s.mapBuffer = none) :
    (∀ b, env.blob mk = .ok b →
      CommittedAsset.getMapBuffer env v s =
        ⟨.ok (some b), { s with mapBuffer := some (.ok (some b)) }, ⟨1, 0, 0⟩⟩)
    ∧ (∀ a, env.blob mk = .error .enoent → v.astKey = some a →
      CommittedAsset.getMapBuffer env v s =
        ⟨.ok env.gen.map, { s with mapBuffer := some (.ok env.gen.map) }, ⟨1, 1, 0⟩⟩)
    ∧ (env.blob mk = .error .enoent → v.astKey = none →
      (CommittedAsset.getMapBuffer env v s).res = .error .enoent)
    ∧ (∀ c, env.blob mk = .error (.other c) →
      (CommittedAsset.getMapBuffer env v s).res = .error (.other c))
    ∧ CommittedAsset.getMapBuffer env v (CommittedAsset.getMapBuffer env v s).st
        = ⟨(CommittedAsset.getMapBuffer env v s).res,
           (CommittedAsset.getMapBuffer env v s).st, Eff.zero⟩ := by
  refine ⟨?_, ?_, ?_, ?_, ?_⟩
  · intro b hb
    simp [CommittedAsset.getMapBuffer, hmk, h0, hb]
  · intro a hb ha
    simp [CommittedAsset.getMapBuffer, hmk, h0, hb, ha]
  · intro hb ha
    simp [CommittedAsset.getMapBuffer, hmk, h0, hb, ha]
  · intro c hb
    simp [CommittedAsset.getMapBuffer, hmk, h0, hb]
  · rcases hb : env.blob mk with e | b
    · rcases e with _ | c
      · rcases ha : v.astKey with _ | a
        · have h1 : CommittedAsset.getMapBuffer env v s =
              ⟨.error .enoent, { s with mapBuffer := some (.error .enoent) }, ⟨1, 0, 0⟩⟩ := by
            simp [CommittedAsset.getMapBuffer, hmk, h0, hb, ha]
          rw [h1]
          exact getMapBuffer_memo env v _ _ rfl
        · have h1 : CommittedAsset.getMapBuffer env v s =
              ⟨.ok env.gen.map, { s with mapBuffer := some (.ok env.gen.map) }, ⟨1, 1, 0⟩⟩ := by
            simp [CommittedAsset.getMapBuffer, hmk, h0, hb, ha]
          rw [h1]
          exact getMapBuffer_memo env v _ _ rfl
      · have h1 : CommittedAsset.getMapBuffer env v s =
            ⟨.error (.other c), { s with mapBuffer := some (.error (.other c)) }, ⟨1, 0, 0⟩⟩ := by
          simp [CommittedAsset.getMapBuffer, hmk, h0, hb]
        rw [h1]
        exact getMapBuffer_memo env v _ _ rfl
    · have h1 : CommittedAsset.getMapBuffer env v s =
          ⟨.ok (some b), { s with mapBuffer := some (.ok (some b)) }, ⟨1, 0, 0⟩⟩ := by
        simp [CommittedAsset.getMapBuffer, hmk, h0, hb]
      rw [h1]
      exact getMapBuffer_memo env v _ _ rfl

/-- Witness for C4 at a concrete asset whose map blob is cached. -/
theorem getMapBuffer_spec_witness :
    (⟨none, none, some 4⟩ : AssetVal).mapKey = some 4
    ∧ CommittedAsset.getMapBuffer ⟨fun _ => .ok [1, 2], ⟨.gstr "x", none⟩⟩
        ⟨none, none, some 4⟩ CAState.init
      = ⟨.ok (some [1, 2]),
         { CAState.init with mapBuffer := some (.ok (some [1, 2])) }, ⟨1, 0, 0⟩⟩ :=
  ⟨rfl, (getMapBuffer_spec ⟨fun _ => .ok [1, 2], ⟨.gstr "x", none⟩⟩ ⟨none, none, some 4⟩
    CAState.init 4 rfl rfl).1 [1, 2] rfl⟩

/-- `getMapBuffer` never decodes a source map. -/
theorem getMapBuffer_decodes (env : Env) (v : AssetVal) (s : CAState) :
    (CommittedAsset.getMapBuffer env v s).eff.decodes = 0 := by
  rcases hm : v.mapKey with _ | mk <;> rcases h0 : s.mapBuffer with _ | r
  · simp [CommittedAsset.getMapBuffer, hm, h0, Eff.zero]
  · simp [CommittedAsset.getMapBuffer, hm, h0, Eff.zero]
  · rcases hb : env.blob mk with e | b
    · rcases e with _ | c
      · rcases ha : v.astKey with _ | a <;>
          simp [CommittedAsset.getMapBuffer, hm, h0, hb, ha]
      · simp [CommittedAsset.getMapBuffer, hm, h0, hb]
    · simp [CommittedAsset.getMapBuffer, hm, h0, hb]
  · simp [CommittedAsset.getMapBuffer, hm, h0, Eff.zero]

/-- C7: on first call, `getMap()` decodes the bytes delivered by
`getMapBuffer()` into a `SourceMap` (exactly one decode happens), resolves to
`undefined`/null when no map bytes exist, and memoizes the settled outcome: a
second call returns it with no effect at all. -/
theorem getMap_spec (env : Env) (v : AssetVal) (s : CAState) (h0 : s.map = none) :
    (∀ b, (CommittedAsset.getMapBuffer env v s).res = .ok (some b) →
      (CommittedAsset.getMap env v s).res = .ok (some ⟨b⟩)
      ∧ (CommittedAsset.getMap env v s).eff.decodes = 1)
    ∧ ((CommittedAsset.getMapBuffer env v s).res = .ok none →
      (CommittedAsset.getMap env v s).res = .ok none)
    ∧ (CommittedAsset.getMap env v s).eff.decodes ≤ 1
    ∧ CommittedAsset.getMap env v (CommittedAsset.getMap env v s).st
        = ⟨(CommittedAsset.getMap env v s).res, (CommittedAsset.getMap env v s).st,
           Eff.zero⟩ := by
  have hd := getMapBuffer_decodes env v s
  rcases hmb : CommittedAsset.getMapBuffer env v s with ⟨r, s1, e1⟩
  rw [hmb] at hd
  simp only at hd
  rcases r with ce | mo
  · have h1 : CommittedAsset.getMap env v s =
        ⟨.error ce, { s1 with map := some (.error ce) }, e1⟩ := by
      unfold CommittedAsset.getMap
      rw [h0, hmb]
    refine ⟨?_, ?_, ?_, ?_⟩
    · intro b hres
      simp at hres
    · intro hres
      simp at hres
    · rw [h1]
      simp [hd]
    · rw [h1]
      unfold CommittedAsset.getMap
      rfl
  · rcases mo with _ | b
    · have h1 : CommittedAsset.getMap env v s =
          ⟨.ok none, { s1 with map := some (.ok none) }, e1⟩ := by
        unfold CommittedAsset.getMap
        rw [h0, hmb]
      refine ⟨?_, ?_, ?_, ?_⟩
      · intro b hres
        simp at hres
      · intro _
        rw [h1]
      · rw [h1]
        simp [hd]
      · rw [h1]
        unfold CommittedAsset.getMap
        rfl
    · have h1 : CommittedAsset.getMap env v s =
          ⟨.ok (some ⟨b⟩), { s1 with map := some (.ok (some ⟨b⟩)) }, e1.add ⟨0, 0, 1⟩⟩ := by
        unfold CommittedAsset.getMap
        rw [h0, hmb]
      refine ⟨?_, ?_, ?_, ?_⟩
      · intro b2 hres
        simp only [Except.ok.injEq, Option.some.injEq] at hres
        subst hres
        rw [h1]
        simp [Eff.add, hd]
      · intro hres
        simp at hres
      · rw [h1]
        simp [Eff.add, hd]
      · rw [h1]
        unfold CommittedAsset.getMap
        rfl

/-- Witness for C7 at a concrete asset with a cached map blob. -/
theorem getMap_spec_witness :
    (CommittedAsset.getMapBuffer ⟨fun _ => .ok [1, 2], ⟨.gstr "x", none⟩⟩
        ⟨none, none, some 4⟩ CAState.init).res = .ok (some [1, 2])
    ∧ (CommittedAsset.getMap ⟨fun _ => .ok [1, 2], ⟨.gstr "x", none⟩⟩
        ⟨none, none, some 4⟩ CAState.init).res = .ok (some ⟨[1, 2]⟩)
    ∧ (CommittedAsset.getMap ⟨fun _ => .ok [1, 2], ⟨.gstr "x", none⟩⟩
        ⟨none, none, some 4⟩ CAState.init).eff.decodes = 1 :=
  ⟨by decide,
   ((getMap_spec ⟨fun _ => .ok [1, 2], ⟨.gstr "x", none⟩⟩ ⟨none, none, some 4⟩
      CAState.init rfl).1 [1, 2] (by decide)).1,
   ((getMap_spec ⟨fun _ => .ok [1, 2], ⟨.gstr "x", none⟩⟩ ⟨none, none, some 4⟩
      CAState.init rfl).1 [1, 2] (by decide)).2⟩

/-- Any `lookupSym` hit is an entry of the table. -/
theorem mem_of_lookupSym :
    ∀ {l : List ((Nat × String) × SymEntry)} {a : Nat} {s : String} {e : SymEntry},
      lookupSym l a s = some e → ((a, s), e) ∈ l := by
  intro l
  induction l with
  | nil =>
    intro a s e h
    simp [lookupSym] at h
  | cons x rest ih =>
    intro a s e h
    obtain ⟨k, e2⟩ := x
    by_cases hk : k = (a, s)
    · subst hk
      simp [lookupSym] at h
      subst h
      exact List.mem_cons_self _ _
    · simp [lookupSym, hk] at h
      exact List.mem_cons_of_mem _ (ih h)

/-- A list holding two distinct elements has length at least two. -/
theorem two_le_length_of_mem_ne {α : Type} {l : List α} {x y : α}
    (hx : x ∈ l) (hy : y ∈ l) (hne : x ≠ y) : 2 ≤ l.length := by
  induction l with
  | nil => simp at hx
  | cons z rest ih =>
    rcases List.mem_cons.mp hx with rfl | hx2
    · rcases List.mem_cons.mp hy with rfl | hy2
      · exact absurd rfl hne
      · rcases rest with _ | ⟨w, rest2⟩
        · simp at hy2
        · simp only [List.length_cons]
          omega
    · rcases List.mem_cons.mp hy with rfl | hy2
      · rcases rest with _ | ⟨w, rest2⟩
        · simp at hx2
        · simp only [List.length_cons]
          omega
      · have := ih hx2 hy2
        simp only [List.length_cons]
        omega

/-- C5: whenever the working pointer sits at an `(asset, exportSymbol)` whose
entry re-exports from an asset not contained in the boundary bundle, resolution
stops right there — at any point of a resolution (any remaining fuel, any
visited set not already containing the pointer) and in particular at the top
level — with the result at the current asset and `symbol` undefined, traversing
no further whatever the target asset's own entries are. -/
theorem symbolResolution_boundary_stop (g : SymGraph) (bdry : List Nat)
    (a : Nat) (s : String) (b : Nat) (t : String) (loc : Option Nat)
    (h : lookupSym g.symtab a s = some (.reexport b t loc))
    (hb : inBoundary (some bdry) b = false) :
    (∀ fuel (visited : List (Nat × String)) lastLoc, (a, s) ∉ visited →
      resolveGo g (some bdry) (fuel + 1) visited a s lastLoc = ⟨a, s, .undef, lastLoc⟩)
    ∧ getSymbolResolution g a s (some bdry) = ⟨a, s, .undef, none⟩ := by
  have hstep : ∀ fuel (visited : List (Nat × String)) lastLoc, (a, s) ∉ visited →
      resolveGo g (some bdry) (fuel + 1) visited a s lastLoc = ⟨a, s, .undef, lastLoc⟩ := by
    intro fuel visited lastLoc hv
    simp [resolveGo, hv, h, hb]
  exact ⟨hstep, hstep g.symtab.length [] none (List.not_mem_nil _)⟩

/-- Witness for C5: asset 1 re-exports `X` from asset 2, which lies outside the
boundary bundle `[1]`; resolution stops at asset 1 with `symbol` undefined even
though asset 2 locally defines `X`. -/
theorem symbolResolution_boundary_stop_witness :
    lookupSym (SymGraph.symtab ⟨[((1, "X"), .reexport 2 "X" none),
        ((2, "X"), .localDef "y")]⟩) 1 "X" = some (.reexport 2 "X" none)
    ∧ inBoundary (some [1]) 2 = false
    ∧ getSymbolResolution ⟨[((1, "X"), .reexport 2 "X" none), ((2, "X"), .localDef "y")]⟩
        1 "X" (some [1]) = ⟨1, "X", .undef, none⟩ :=
  ⟨rfl, rfl,
   (symbolResolution_boundary_stop ⟨[((1, "X"), .reexport 2 "X" none),
      ((2, "X"), .localDef "y")]⟩ [1] 1 "X" 2 "X" none rfl rfl).2⟩

/-- C6: for any two distinct assets forming a re-export cycle on a symbol `X`
(`A` re-exports `X` from `B` and `B` re-exports `X` from `A`), resolving `X` on
`A` with no boundary terminates — the visited set detects the repeated
`(asset, exportSymbol)` pair — and returns a result whose `symbol` is
undefined. -/
theorem symbolResolution_cycle (g : SymGraph) (A B : Nat) (X : String)
    (l1 l2 : Option Nat) (hAB : A ≠ B)
    (hA : lookupSym g.symtab A X = some (.reexport B X l1))
    (hB : lookupSym g.symtab B X = some (.reexport A X l2)) :
    (getSymbolResolution g A X none).symbol = SymVal.undef := by
  have m1 := mem_of_lookupSym hA
  have m2 := mem_of_lookupSym hB
  have hne : (((A, X), SymEntry.reexport B X l1) : (Nat × String) × SymEntry)
      ≠ ((B, X), SymEntry.reexport A X l2) :=
    fun hcon => hAB (congrArg (fun p => p.1.1) hcon)
  have hlen : 2 ≤ g.symtab.length := two_le_length_of_mem_ne m1 m2 hne
  have hBA : ((B, X) : Nat × String) ≠ (A, X) :=
    fun hcon => hAB (congrArg Prod.fst hcon).symm
  have step : ∀ fuel (visited : List (Nat × String)) a2 s2 lastLoc b2 t2 loc2,
      (a2, s2) ∉ visited →
      lookupSym g.symtab a2 s2 = some (.reexport b2 t2 loc2) →
      resolveGo g none (fuel + 1) visited a2 s2 lastLoc =
        resolveGo g none fuel ((a2, s2) :: visited) b2 t2 loc2 := by
    intro fuel visited a2 s2 lastLoc b2 t2 loc2 hv hl
    simp [resolveGo, hv, hl, inBoundary]
  have stop : ∀ fuel (visited : List (Nat × String)) a2 s2 lastLoc,
      (a2, s2) ∈ visited →
      resolveGo g none (fuel + 1) visited a2 s2 lastLoc = ⟨a2, s2, .undef, lastLoc⟩ := by
    intro fuel visited a2 s2 lastLoc hv
    simp [resolveGo, hv]
  unfold getSymbolResolution
  rw [step g.symtab.length [] A X none B X l1 (List.not_mem_nil _) hA]
  rw [show g.symtab.length = (g.symtab.length - 1) + 1 by omega]
  rw [step (g.symtab.length - 1) [(A, X)] B X l1 A X l2 (by simp [hBA]) hB]
  rw [show g.symtab.length - 1 = (g.symtab.length - 2) + 1 by omega]
  rw [stop (g.symtab.length - 2) [(B, X), (A, X)] A X l2 (by simp)]

/-- Witness for C6 on the two-asset cycle `1 ↔ 2` over symbol `X`. -/
theorem symbolResolution_cycle_witness :
    lookupSym (SymGraph.symtab ⟨[((1, "X"), .reexport 2 "X" none),
        ((2, "X"), .reexport 1 "X" none)]⟩) 1 "X" = some (.reexport 2 "X" none)
    ∧ lookupSym (SymGraph.symtab ⟨[((1, "X"), .reexport 2 "X" none),
        ((2, "X"), .reexport 1 "X" none)]⟩) 2 "X" = some (.reexport 1 "X" none)
    ∧ (getSymbolResolution ⟨[((1, "X"), .reexport 2 "X" none),
        ((2, "X"), .reexport 1 "X" none)]⟩ 1 "X" none).symbol = SymVal.undef :=
  ⟨rfl, rfl,
   symbolResolution_cycle ⟨[((1, "X"), .reexport 2 "X" none),
      ((2, "X"), .reexport 1 "X" none)]⟩ 1 2 "X" none none (by decide) rfl rfl⟩

/-- C9: `createBundle` infers the bundle's unique key, type, and environment
from a supplied entry asset; with no entry asset it requires all three to be
supplied explicitly (failing otherwise); and every bundle it returns has empty
membership. -/
theorem createBundle_spec (opts : CreateBundleOpts) :
    (∀ a, opts.entryAsset = some a →
      createBundle opts = some ⟨a.id, a.type, a.env, opts.target, []⟩)
    ∧ (∀ k t e, opts.entryAsset = none → opts.uniqueKey = some k →
        opts.type = some t → opts.env = some e →
        createBundle opts = some ⟨k, t, e, opts.target, []⟩)
    ∧ (opts.entryAsset = none →
        (opts.uniqueKey = none ∨ opts.type = none ∨ opts.env = none) →
        createBundle opts = none)
    ∧ (∀ b, createBundle opts = some b → b.assets = []) := by
  refine ⟨?_, ?_, ?_, ?_⟩
  · intro a h
    simp [createBundle, h]
  · intro k t e h hk ht he
    simp [createBundle, h, hk, ht, he]
  · intro h hmiss
    rcases hu : opts.uniqueKey with _ | k
    · simp [createBundle, h, hu]
    · rcases ht : opts.type with _ | t
      · simp [createBundle, h, hu, ht]
      · rcases he : opts.env with _ | e
        · simp [createBundle, h, hu, ht, he]
        · rcases hmiss with hm | hm | hm <;> simp_all
  · intro b hb
    rcases h : opts.entryAsset with _ | a
    · rcases hu : opts.uniqueKey with _ | k <;>
        rcases ht : opts.type with _ | t <;>
        rcases he : opts.env with _ | e <;>
        simp [createBundle, h, hu, ht, he] at hb
      simp [← hb]
    · simp [createBundle, h] at hb
      simp [← hb]

/-- Witness for C9: a bundle created from an entry asset inherits its identity,
type, and environment and starts empty; one created without an entry asset and
without an explicit type fails. -/
theorem createBundle_spec_witness :
    createBundle ⟨some ⟨"a1", "js", 3⟩, none, none, none, 9⟩
      = some ⟨"a1", "js", 3, 9, []⟩
    ∧ createBundle ⟨none, some "k", none, some 3, 9⟩ = none :=
  ⟨(createBundle_spec ⟨some ⟨"a1", "js", 3⟩, none, none, none, 9⟩).1 ⟨"a1", "js", 3⟩ rfl,
   (createBundle_spec ⟨none, some "k", none, some 3, 9⟩).2.2.1 rfl (Or.inr (Or.inl rfl))⟩

end Parcel
